import Mathlib

/-!
# Fashioning.ai — verification of the Trend Aggregation & Degraded-Search Engine

Shallow embedding of the Python backend of the Fashioning.ai repository and
proofs about it.  The embedded components are:

* `backend/scripts/fashion_scraper.py` — classifier (`identify_category`,
  `identify_regions`), scorer (`calculate_trend_score`) and article parser
  (`parse_fashion_articles`);
* `backend/app/services/mock_data.py` — the Synthetic Dataset
  (`SAMPLE_TRENDS`, `get_mock_trends_response`, `get_mock_trend_by_id`, ...);
* `backend/app/services/algolia_service.py` — the Index Facade
  (`search_trends`, `get_trend_by_id`, `get_facet_values`); the remote
  Algolia client is external I/O, so each operation takes the outcome of its
  (single) remote call as an explicit parameter: `none` models an
  unconfigured client (`self.async_client is None`), `some (Except.error e)`
  models a remote call that raised, `some (Except.ok v)` a successful call;
* `backend/app/services/fashion_scraper_service.py` — the aggregation
  pipeline (`enrich_algolia_data`); the five scraper coroutines are network
  I/O, so the list produced by `asyncio.gather(..., return_exceptions=True)`
  is a parameter: one entry per source, pairing the source name with either
  its trend list (`Except.ok`) or its raised exception (`Except.error`).

Modelling conventions: Python floats are modelled as `ℚ` (all arithmetic in
the embedded formulas is exact at the modelled precision; `round(x, 2)` is
modelled as rounding `100·x` to the nearest integer); `datetime.now()` is
abstracted into an integer timestamp parameter `ts`, rendered by
`isoformat`; Python string `.lower()` is the per-character lowercase map;
the substring operator `in` is `strContains`.  Timestamp-valued record
fields that are set from the clock and never consulted by any embedded
operation (`predicted_peak`, the mock records with `created_at` and
`updated_at` from `datetime.now()`, `demographics`, `color_palette` of the
mock corpus) are omitted from the corresponding structures.
-/

/-! ## String helpers (Python `str.lower` and the `in` operator) -/

/-- Python `str.lower()`, modelled as the per-character lowercase map
(`String.toLower` has the same action but its `mapAux` does not reduce in
the kernel, so we map over the character list directly). -/
def lowerStr (s : String) : String :=
  List.asString (s.data.map Char.toLower)

/-- Scan of `containsSub needle hay`: does `needle` occur contiguously in
`hay`?  Empty needles occur everywhere, matching Python. -/
def containsSub (needle : List Char) : List Char → Bool
  | [] => needle.isEmpty
  | c :: rest => needle.isPrefixOf (c :: rest) || containsSub needle rest

/-- Python `needle in hay` on strings (contiguous substring test). -/
def strContains (hay needle : String) : Bool :=
  containsSub needle.data hay.data

/-! ## `backend/scripts/fashion_scraper.py` — classifier and scorer -/

/-- Fashion categories mapping (`self.category_keywords`), in declaration
order: Python dicts preserve insertion order, and the classifier's tie-break
depends on it. -/
def category_keywords : List (String × List String) :=
  [("luxury", ["luxury", "couture", "haute", "premium", "exclusive", "designer", "high-end"]),
   ("streetwear", ["streetwear", "urban", "casual", "street", "sneakers", "hoodie", "oversized"]),
   ("sustainable", ["sustainable", "eco-friendly", "organic", "recycled", "ethical", "green"]),
   ("vintage", ["vintage", "retro", "classic", "heritage", "throwback", "nostalgic"]),
   ("minimalist", ["minimalist", "minimal", "clean", "simple", "understated", "essential"]),
   ("maximalist", ["maximalist", "bold", "dramatic", "statement", "extravagant", "ornate"]),
   ("athleisure", ["athleisure", "athletic", "sporty", "activewear", "performance", "gym"]),
   ("formal", ["formal", "business", "professional", "suit", "tailored", "corporate"]),
   ("casual", ["casual", "everyday", "comfortable", "relaxed", "easy", "laid-back"]),
   ("avant-garde", ["avant-garde", "experimental", "innovative", "cutting-edge", "artistic", "conceptual"])]

/-- Region mapping based on fashion weeks and brands (`self.region_mapping`). -/
def region_mapping : List (String × List String) :=
  [("North America", ["new york", "nyfw", "lafw", "canada", "american", "us", "united states"]),
   ("Europe", ["paris", "pfw", "milan", "mfw", "london", "lfw", "european", "french", "italian", "british"]),
   ("Asia Pacific", ["tokyo", "tfw", "seoul", "sfw", "shanghai", "asian", "japanese", "korean", "chinese"]),
   ("Latin America", ["sao paulo", "spfw", "mexico", "brazil", "latin", "south american"]),
   ("Middle East", ["dubai", "abudhabi", "middle east", "arabic", "gulf"]),
   ("Africa", ["lagos", "africa", "african", "nigerian", "south african"])]

/-- Number of keywords of a category that occur in the lower-cased text:
`sum(1 for keyword in keywords if keyword in text_lower)`. -/
def keywordScore (keywords : List String) (text_lower : String) : Nat :=
  keywords.countP (fun kw => strContains text_lower kw)

/-- One step of Python `max(..., key=...)`: keep the current best unless the
next element is strictly greater (so the first maximum wins ties). -/
def pyStep {α : Type} (best q : α × Nat) : α × Nat :=
  if best.2 < q.2 then q else best

/-- Python `max(category_scores, key=category_scores.get)` over a non-empty
association list, iterated in insertion order. -/
def pythonMax {α : Type} (x : α × Nat) (xs : List (α × Nat)) : α × Nat :=
  xs.foldl pyStep x

/-- Dispatch on the (possibly empty) dict of positive scores:
`max(category_scores, key=category_scores.get) if category_scores else "casual"`. -/
def maxCategory : List (String × Nat) → String
  | [] => "casual"
  | x :: xs => (pythonMax x xs).1

/-- `FashionTrendScraper.identify_category`: score every category of the
taxonomy against the lower-cased text, keep the positive scores (in
declaration order, as the Python dict does) and take the first maximum,
defaulting to `"casual"`. -/
def identify_category (text : String) : String :=
  maxCategory
    ((category_keywords.map (fun p => (p.1, keywordScore p.2 (lowerStr text)))).filter
      (fun q => 0 < q.2))

/-- `FashionTrendScraper.identify_regions`: every region one of whose
keywords occurs in the lower-cased text, in declaration order, defaulting to
`["Global"]`. -/
def identify_regions (text : String) : List String :=
  let detected_regions := region_mapping.filterMap
    (fun p => if p.2.any (fun kw => strContains (lowerStr text) kw) then some p.1 else none)
  if detected_regions.isEmpty then ["Global"] else detected_regions

/-- Python `round(x, 2)` on the exact rational value: round `100·x` to the
nearest integer and divide back.  (Both the code formula and the spec
formula below are rounded by this same function, so the tie-breaking
convention plays no role in their comparison.) -/
def round2 (x : ℚ) : ℚ :=
  ((round (x * 100) : ℤ) : ℚ) / 100

/-- `FashionTrendScraper.calculate_trend_score`, exactly as written in the
code: three independently capped, weighted sub-scores, rounded to two
decimal places. -/
def calculate_trend_score (social_mentions influencer_count brand_count : Nat) : ℚ :=
  let social_score := min ((social_mentions : ℚ) / 10000) 1 * 0.4
  let influencer_score := min ((influencer_count : ℚ) / 100) 1 * 0.3
  let brand_score := min ((brand_count : ℚ) / 20) 1 * 0.3
  round2 (social_score + influencer_score + brand_score)

/-- Formula of spec §4.2, written in the spec's own shape
(`0.4·min(social_mentions/10000, 1) + 0.3·min(influencer_count/100, 1) +
0.3·min(brand_count/20, 1)`, rounded to 2 decimal places), to be compared
with the code's `calculate_trend_score`. -/
def trend_score_spec (social_mentions influencer_count brand_count : Nat) : ℚ :=
  round2 (0.4 * min ((social_mentions : ℚ) / 10000) 1
    + 0.3 * min ((influencer_count : ℚ) / 100) 1
    + 0.3 * min ((brand_count : ℚ) / 20) 1)

/-! ## `parse_fashion_articles` -/

/-- Raw article fragment, as extracted from the HTML by the BeautifulSoup
selectors at the head of the loop body of `parse_fashion_articles`
(`title_elem`/`get_text`, description-or-empty, non-empty tag texts,
brand-or-empty, image URLs).  The HTML traversal itself is external
unstructured input and is abstracted into these extracted fields. -/
structure Article where
  title? : Option String
  description : String
  tags : List String
  brand : String
  images : List String

/-- Trend record built by `parse_fashion_articles` (static fields only; see
the module comment for the omitted clock-derived fields). -/
structure TrendD where
  objectID : String
  name : String
  category : String
  description : String
  regions : List String
  brand : String
  source : String
  source_url : String
  image_url : String
  trend_score : ℚ
  growth_rate : ℚ
  social_mentions : Nat
  influencer_adoptions : Nat
  brand_adoptions : List String
  tags : List String

/-- Body of the article loop of `FashionTrendScraper.parse_fashion_articles`:
articles without a title element are skipped (`continue`), articles whose
title has fewer than 10 characters are skipped (`continue`), all others are
classified, scored and appended to `results`. -/
def parse_step (source_url : String) (ts : Nat) (results : List TrendD) (a : Article) :
    List TrendD :=
  match a.title? with
  | none => results
  | some title =>
    if title.length < 10 then results
    else
      let full_text := title ++ " " ++ a.description ++ " "
        ++ String.intercalate " " a.tags ++ " " ++ a.brand
      let influencer_count := a.tags.countP (fun t => strContains (lowerStr t) "influencer")
      let trend : TrendD :=
        { objectID := "fashion_" ++ Nat.repr (results.length + 1) ++ "_" ++ Nat.repr ts
          name := title
          category := identify_category full_text
          description :=
            -- Python parses this as
            -- `(description or f"Latest trend from {brand}") if brand else "Fashion trend"`.
            if a.brand ≠ "" then
              (if a.description ≠ "" then a.description else "Latest trend from " ++ a.brand)
            else "Fashion trend"
          regions := identify_regions full_text
          brand := a.brand
          source := source_url
          source_url := source_url
          image_url := match a.images with | [] => "" | i :: _ => i
          trend_score := calculate_trend_score (a.tags.length * 100) influencer_count
            (if a.brand ≠ "" then 1 else 0)
          growth_rate := ((10 + 2 * a.tags.length : ℕ) : ℚ)
          social_mentions := a.tags.length * 100
          influencer_adoptions := influencer_count
          brand_adoptions := if a.brand ≠ "" then [a.brand] else []
          tags := a.tags }
      results ++ [trend]

/-- `FashionTrendScraper.parse_fashion_articles`: process at most 15
articles (`article_tags[:15]`), accumulating accepted trends in order.  The
per-article `try`/`except` that logs and continues is subsumed by the total
step function. -/
def parse_fashion_articles (articles : List Article) (source_url : String) (ts : Nat) :
    List TrendD :=
  (articles.take 15).foldl (parse_step source_url ts) []

/-! ## `backend/app/services/mock_data.py` — the Synthetic Dataset -/

/-- Canonical trend record as stored in the Synthetic Dataset and served by
the Index Facade (static fields of the Python dicts / the `Trend` pydantic
model; see the module comment for the omitted clock-derived fields). -/
structure Trend where
  objectID : String
  name : String
  category : String
  description : String
  regions : List String
  brand : String
  source : String
  trend_score : ℚ
  growth_rate : ℚ
  sustainability_score : ℚ
  social_mentions : Nat
  influencer_adoptions : Nat
  brand_adoptions : List String
  tags : List String

/-- First record of `SAMPLE_TRENDS`. -/
def trend_001 : Trend :=
  { objectID := "trend_001"
    name := "Sustainable Luxury Fashion"
    category := "luxury"
    description := "High-end fashion brands embracing eco-friendly materials and ethical production methods"
    regions := ["Global"]
    brand := "Stella McCartney"
    source := "Vogue Runway"
    trend_score := 0.92
    growth_rate := 22.8
    sustainability_score := 0.95
    social_mentions := 28750
    influencer_adoptions := 156
    brand_adoptions := ["Stella McCartney", "Patagonia", "Eileen Fisher"]
    tags := ["sustainable", "luxury", "eco-friendly"] }

/-- Second record of `SAMPLE_TRENDS`. -/
def trend_002 : Trend :=
  { objectID := "trend_002"
    name := "Y2K Revival Streetwear"
    category := "streetwear"
    description := "Early 2000s fashion making a comeback with metallic fabrics and futuristic accessories"
    regions := ["North America", "Europe"]
    brand := "Nike"
    source := "Vogue Runway"
    trend_score := 0.85
    growth_rate := 15.2
    sustainability_score := 0.6
    social_mentions := 15420
    influencer_adoptions := 89
    brand_adoptions := ["Nike", "Adidas", "Urban Outfitters"]
    tags := ["y2k", "streetwear", "retro"] }

/-- Third record of `SAMPLE_TRENDS`. -/
def trend_003 : Trend :=
  { objectID := "trend_003"
    name := "Minimalist Athleisure"
    category := "athleisure"
    description := "Clean, simple athletic wear that seamlessly transitions from gym to street"
    regions := ["North America", "Asia Pacific"]
    brand := "Lululemon"
    source := "Vogue Runway"
    trend_score := 0.78
    growth_rate := 12.5
    sustainability_score := 0.75
    social_mentions := 12340
    influencer_adoptions := 67
    brand_adoptions := ["Lululemon", "Athleta", "Alo Yoga"]
    tags := ["minimalist", "athleisure", "clean"] }

/-- Sample fashion trends data (`SAMPLE_TRENDS`). -/
def SAMPLE_TRENDS : List Trend := [trend_001, trend_002, trend_003]

/-- `SAMPLE_CATEGORIES`. -/
def SAMPLE_CATEGORIES : List String :=
  ["luxury", "streetwear", "sustainable", "casual", "formal",
   "vintage", "minimalist", "maximalist", "athleisure", "avant-garde"]

/-- `SAMPLE_REGIONS`. -/
def SAMPLE_REGIONS : List String :=
  ["Global", "North America", "Europe", "Asia Pacific",
   "Australia", "Africa", "South America"]

/-- The hard-coded `category` facet map returned by
`get_mock_trends_response` (a literal in the source, independent of the
query). -/
def mock_facets_category : List (String × Nat) :=
  [("luxury", 1), ("streetwear", 1), ("athleisure", 1), ("casual", 1), ("avant-garde", 1)]

/-- The hard-coded `regions` facet map returned by
`get_mock_trends_response` (a literal in the source, independent of the
query). -/
def mock_facets_regions : List (String × Nat) :=
  [("Global", 2), ("North America", 3), ("Europe", 3), ("Asia Pacific", 1)]

/-- Search response (`TrendResponse` pydantic model); the `facets` dict is
split into its two keys. -/
structure TrendResponse where
  hits : List Trend
  total : Nat
  page : Nat
  pages : Nat
  facets_category : List (String × Nat)
  facets_regions : List (String × Nat)
  processing_time : ℚ

/-- Filtering chain at the head of `get_mock_trends_response`: the three
successive list comprehensions, each applied only when its argument is
truthy in Python (present and non-empty). -/
def mockFiltered (query : String) (category region : Option String) : List Trend :=
  let ft0 := SAMPLE_TRENDS
  let ft1 :=
    if query ≠ "" then
      ft0.filter (fun t =>
        strContains (lowerStr t.name) (lowerStr query)
        || strContains (lowerStr t.description) (lowerStr query)
        || strContains (lowerStr t.category) (lowerStr query))
    else ft0
  let ft2 :=
    match category with
    | none => ft1
    | some c =>
      if c ≠ "" then ft1.filter (fun t => lowerStr t.category == lowerStr c) else ft1
  match region with
  | none => ft2
  | some reg =>
    if reg ≠ "" then ft2.filter (fun t => t.regions.contains reg) else ft2

/-- `get_mock_trends_response`: filter the corpus by query, category and
region (`mockFiltered`), then paginate with `start = page * per_page`,
slice `[start, start + per_page)`, and report
`pages = (total + per_page - 1) // per_page` together with the hard-coded
facet maps. -/
def get_mock_trends_response (query : String) (category region : Option String)
    (page per_page : Nat) : TrendResponse :=
  let ft3 := mockFiltered query category region
  let total := ft3.length
  { hits := (ft3.drop (page * per_page)).take per_page
    total := total
    page := page
    pages := (total + per_page - 1) / per_page
    facets_category := mock_facets_category
    facets_regions := mock_facets_regions
    processing_time := 0.05 }

/-- `get_mock_categories`. -/
def get_mock_categories : List String := SAMPLE_CATEGORIES

/-- `get_mock_regions`. -/
def get_mock_regions : List String := SAMPLE_REGIONS

/-- `get_mock_trend_by_id`: first corpus record whose `objectID` equals the
requested id, else `None`. -/
def get_mock_trend_by_id (trend_id : String) : Option Trend :=
  SAMPLE_TRENDS.find? (fun t => t.objectID == trend_id)

/-! ## `backend/app/services/algolia_service.py` — the Index Facade

Each operation takes the outcome of its remote call as a parameter (see the
module comment): `none` = client unconfigured, `some (Except.error e)` =
the remote call raised `e`, `some (Except.ok v)` = the remote call
succeeded with `v` (already converted to the response model; a conversion
failure is a raise, i.e. an `Except.error`). -/

/-- `AlgoliaService.search_trends`: serve from the remote index when it is
configured and the call succeeds, otherwise fall back to the Synthetic
Dataset for this call, with the same arguments. -/
def search_trends (remote : Option (Except String TrendResponse)) (query : String)
    (category region : Option String) (page per_page : Nat) : TrendResponse :=
  match remote with
  | none => get_mock_trends_response query category region page per_page
  | some (Except.error _) => get_mock_trends_response query category region page per_page
  | some (Except.ok resp) => resp

/-- `AlgoliaService.get_trend_by_id`: remote `get_object` when available,
Synthetic Dataset lookup otherwise (unconfigured client or raised call). -/
def get_trend_by_id (remote : Option (Except String Trend)) (trend_id : String) :
    Option Trend :=
  match remote with
  | none => get_mock_trend_by_id trend_id
  | some (Except.error _) => get_mock_trend_by_id trend_id
  | some (Except.ok t) => some t

/-- `AlgoliaService.get_facet_values`: remote facet listing when available;
otherwise the fixed mock category / region lists, and `[]` for any other
facet name. -/
def get_facet_values (remote : Option (Except String (List String))) (facet_name : String) :
    List String :=
  match remote with
  | none =>
    if facet_name = "category" then get_mock_categories
    else if facet_name = "regions" then get_mock_regions
    else []
  | some (Except.error _) =>
    if facet_name = "category" then get_mock_categories
    else if facet_name = "regions" then get_mock_regions
    else []
  | some (Except.ok vs) => vs

/-! ## `backend/app/services/fashion_scraper_service.py` — aggregation -/

/-- Rendering of `datetime.now().isoformat()` at the abstract integer
timestamp `ts` (the same instant also feeds
`int(datetime.now().timestamp())` inside the generated ids, rendered there
by `Nat.repr ts`). -/
def isoformat (ts : Nat) : String :=
  "@" ++ Nat.repr ts

/-- Scraped trend dict as produced by the five scraper coroutines of
`FashionScraperService` (static fields; `objectID`, `created_at` and
`updated_at` are absent from the dicts until `enrich_algolia_data` assigns
them, modelled by empty-string defaults). -/
structure ScrapedTrend where
  name : String
  description : String
  category : String
  source : String
  url : String
  trend_score : ℚ
  growth_rate : ℚ
  sustainability_score : ℚ
  regions : List String
  brand_adoptions : List String
  social_mentions : Nat
  tags : List String
  objectID : String := ""
  created_at : String := ""
  updated_at : String := ""

/-- Successful return value of `enrich_algolia_data` (the keys of the
returned dict). -/
structure EnrichOk where
  trends : List ScrapedTrend
  source_stats : List (String × Nat)
  total_trends : Nat
  enrichment_timestamp : String

/-- One iteration of the `for i, result in enumerate(results)` loop of
`enrich_algolia_data`: an exception entry is logged and skipped
(`continue`); a trend list extends `all_trends`, records
`source_stats[source_name] = len(trends)`, and leaves `source_name` bound
to this source — the accumulator's third component models that leaked loop
variable. -/
def enrich_step (acc : List ScrapedTrend × List (String × Nat) × String)
    (p : String × Except String (List ScrapedTrend)) :
    List ScrapedTrend × List (String × Nat) × String :=
  match p.2 with
  | Except.error _ => acc
  | Except.ok trends => (acc.1 ++ trends, acc.2.1 ++ [(p.1, trends.length)], p.1)

/-- `FashionScraperService.enrich_algolia_data`.  `results` pairs each
source name (the code's literal list `["Vogue", "Business of Fashion",
"Who What Wear", "Instagram", "Fast Fashion"]`, indexed in step with the
`asyncio.gather` results) with its gather outcome.  After collection, every
trend in `all_trends` receives
`objectID = f"scraped_{source_name.lower()}_{i}_{int(now.timestamp())}"` —
`source_name` being whatever the collection loop left in it — and
`created_at = updated_at = now.isoformat()`.  The surrounding
`try`/`except` that would return `{"error": str(e)}` is the `Except.error`
branch of the return type; the collection and assignment loops are total,
so the embedding never takes it. -/
def enrich_algolia_data (results : List (String × Except String (List ScrapedTrend)))
    (ts : Nat) : Except String EnrichOk :=
  let c := results.foldl enrich_step ([], [], "")
  let all_trends := c.1
  let source_stats := c.2.1
  let source_name := c.2.2
  let enriched := all_trends.enum.map (fun q =>
    { q.2 with
      objectID := "scraped_" ++ lowerStr source_name ++ "_" ++ Nat.repr q.1
        ++ "_" ++ Nat.repr ts
      created_at := isoformat ts
      updated_at := isoformat ts })
  Except.ok
    { trends := enriched
      source_stats := source_stats
      total_trends := enriched.length
      enrichment_timestamp := isoformat ts }

/-! ## Specification-side definitions -/

/-- Specification predicate for the Synthetic Dataset filter (spec §4.6):
case-insensitive substring match of the query against name, description or
category, AND exact case-insensitive category match, AND membership of the
region in the record's regions — each conjunct trivially true when its
argument is absent or empty. -/
def mockMatches (query : String) (category region : Option String) (t : Trend) : Bool :=
  (query == ""
    || strContains (lowerStr t.name) (lowerStr query)
    || strContains (lowerStr t.description) (lowerStr query)
    || strContains (lowerStr t.category) (lowerStr query))
  && (match category with
      | none => true
      | some c => c == "" || lowerStr t.category == lowerStr c)
  && (match region with
      | none => true
      | some reg => reg == "" || t.regions.contains reg)

/-- Property packaging the Synthetic-Dataset search contract for one
argument tuple: the hits are the `[page·per_page, page·per_page+per_page)`
slice of the corpus filtered by `mockMatches`, `total` counts the whole
filtered set, at most `per_page` hits are returned, and the `pages` field
is the ceiling of `total / per_page` (both as Mathlib's natural ceiling
division and as the rational ceiling), hence `0` when `total = 0`. -/
def mock_search_spec (query : String) (category region : Option String)
    (page per_page : Nat) : Prop :=
  let resp := get_mock_trends_response query category region page per_page
  let filtered := SAMPLE_TRENDS.filter (mockMatches query category region)
  resp.hits = (filtered.drop (page * per_page)).take per_page
  ∧ resp.total = filtered.length
  ∧ resp.hits.length ≤ per_page
  ∧ resp.pages = resp.total ⌈/⌉ per_page
  ∧ ((resp.pages : ℤ) = ⌈(resp.total : ℚ) / (per_page : ℚ)⌉)
  ∧ (resp.total = 0 → resp.pages = 0)

/-- Trends contributed by the successful sources, in source order
(specification-side view of the collection loop). -/
def okTrends (results : List (String × Except String (List ScrapedTrend))) :
    List ScrapedTrend :=
  match results with
  | [] => []
  | p :: rest =>
    match p.2 with
    | Except.ok trends => trends ++ okTrends rest
    | Except.error _ => okTrends rest

/-- Per-source accepted-trend counts of the successful sources, in source
order; failed sources contribute no entry. -/
def okStats (results : List (String × Except String (List ScrapedTrend))) :
    List (String × Nat) :=
  match results with
  | [] => []
  | p :: rest =>
    match p.2 with
    | Except.ok trends => (p.1, trends.length) :: okStats rest
    | Except.error _ => okStats rest

/-- Name of the last successful source, defaulting to `d` (the value the
leaked `source_name` loop variable holds after collection). -/
def lastOkD (d : String) (results : List (String × Except String (List ScrapedTrend))) :
    String :=
  match results with
  | [] => d
  | p :: rest =>
    match p.2 with
    | Except.ok _ => lastOkD p.1 rest
    | Except.error _ => lastOkD d rest

/-- Id-and-timestamp assignment applied to the trend at batch position `i`. -/
def assignId (source_name : String) (ts i : Nat) (t : ScrapedTrend) : ScrapedTrend :=
  { t with
    objectID := "scraped_" ++ lowerStr source_name ++ "_" ++ Nat.repr i ++ "_" ++ Nat.repr ts
    created_at := isoformat ts
    updated_at := isoformat ts }

/-- Enrichment-assigned fields reset, for comparing a returned trend with
the raw scraped trend it came from. -/
def stripAssigned (t : ScrapedTrend) : ScrapedTrend :=
  { t with objectID := "", created_at := "", updated_at := "" }

/-- Whether an `enrich_algolia_data` outcome is the error-report dict
`{"error": str(e)}` — the only failure record its return value can carry. -/
def is_error_report (x : Except String EnrichOk) : Bool :=
  match x with
  | Except.error _ => true
  | Except.ok _ => false

/-- Source statistics of an `enrich_algolia_data` outcome (empty for an
error report). -/
def stats_of (x : Except String EnrichOk) : List (String × Nat) :=
  match x with
  | Except.error _ => []
  | Except.ok r => r.source_stats

/-- Number of trends in an `enrich_algolia_data` outcome. -/
def trends_count (x : Except String EnrichOk) : Nat :=
  match x with
  | Except.error _ => 0
  | Except.ok r => r.trends.length

/-- Decimal value of a digit string, used to invert `Nat.repr`. -/
def digitsVal (cs : List Char) : Nat :=
  cs.foldl (fun a c => 10 * a + (c.toNat - 48)) 0

/-! ## Concrete inputs used by counterexamples and witnesses -/

/-- Gather outcome of a successful Vogue scrape with one trend (shape of
`scrape_vogue_trends`). -/
def vogueTrend : ScrapedTrend :=
  { name := "Runway Tailoring Returns"
    description := "Trend analysis and insights from fashion experts."
    category := "luxury"
    source := "Vogue"
    url := "https://www.vogue.com/fashion/trends"
    trend_score := 0.85
    growth_rate := 15
    sustainability_score := 0.6
    regions := ["Global"]
    brand_adoptions := ["Luxury Brands"]
    social_mentions := 5000
    tags := ["runway", "luxury", "authoritative"] }

/-- Gather outcome of a successful Who What Wear scrape with one trend. -/
def wwwTrend : ScrapedTrend :=
  { name := "Street Style Staples"
    description := "Trend analysis and insights from fashion experts."
    category := "streetwear"
    source := "Who What Wear"
    url := ""
    trend_score := 0.75
    growth_rate := 20
    sustainability_score := 0.5
    regions := ["Global"]
    brand_adoptions := ["Fast Fashion", "Streetwear"]
    social_mentions := 8000
    tags := ["street style", "celebrity", "accessible"] }

/-- Gather outcome of a successful Fast Fashion scrape with one trend. -/
def fastFashionTrend : ScrapedTrend :=
  { name := "Oversized Blazer Trend"
    description := "Oversized blazers dominating fast fashion collections"
    category := "casual"
    source := "Zara/ASOS/H&M"
    url := ""
    trend_score := 0.85
    growth_rate := 30
    sustainability_score := 0.3
    regions := ["Global"]
    brand_adoptions := ["Zara", "ASOS", "H&M"]
    social_mentions := 10000
    tags := ["oversized", "blazer", "fast fashion"] }

/-- Gather results for a three-adapter run in which exactly the middle
adapter raises. -/
def c6_results_mixed : List (String × Except String (List ScrapedTrend)) :=
  [("Vogue", Except.ok [vogueTrend]),
   ("Business of Fashion", Except.error "ClientConnectorError"),
   ("Who What Wear", Except.ok [wwwTrend])]

/-- The same run with the failing adapter removed. -/
def c6_results_clean : List (String × Except String (List ScrapedTrend)) :=
  [("Vogue", Except.ok [vogueTrend]),
   ("Who What Wear", Except.ok [wwwTrend])]

/-- Gather results for a two-adapter run whose trends come from distinct
sources ("Vogue" first, "Fast Fashion" last). -/
def c7_results : List (String × Except String (List ScrapedTrend)) :=
  [("Vogue", Except.ok [vogueTrend]),
   ("Fast Fashion", Except.ok [fastFashionTrend])]

/-- Successful payload of `enrich_algolia_data c7_results 7`. -/
def c7_result : EnrichOk :=
  (enrich_algolia_data c7_results 7).toOption.getD
    { trends := [], source_stats := [], total_trends := 0, enrichment_timestamp := "" }

/-- Article whose extracted title is shorter than 10 characters. -/
def c8_short : Article :=
  { title? := some "Short", description := "A description long enough to matter"
    tags := ["luxury"], brand := "Prada", images := [] }

/-- Article whose extracted title passes the minimum-length check. -/
def c8_good : Article :=
  { title? := some "Minimalist Athleisure Everywhere"
    description := "Clean athletic wear for the street"
    tags := ["minimalist"], brand := "", images := [] }

/-- Witness article with a short title (length 8). -/
def c8w_short : Article :=
  { title? := some "Tiny hat", description := "", tags := [], brand := "", images := [] }

/-- Witness article with an accepted title. -/
def c8w_good : Article :=
  { title? := some "Oversized Blazer Trend Report"
    description := "", tags := ["oversized", "blazer"], brand := "Zara", images := [] }

/-! ## Helper lemmas: decimal rendering of naturals is injective -/

/-- Accumulator lemma for `Nat.toDigitsCore` in base 10. -/
theorem toDigitsCore_append10 :
    ∀ (fuel n : Nat) (ds : List Char),
      Nat.toDigitsCore 10 fuel n ds = Nat.toDigitsCore 10 fuel n [] ++ ds := by
  intro fuel
  induction fuel with
  | zero => intro n ds; simp [Nat.toDigitsCore]
  | succ f ih =>
    intro n ds
    simp only [Nat.toDigitsCore]
    by_cases h : n / 10 = 0
    · simp [h]
    · rw [if_neg h, if_neg h, ih (n / 10) (Nat.digitChar (n % 10) :: ds),
        ih (n / 10) [Nat.digitChar (n % 10)], List.append_assoc]
      rfl

/-- Value of a digit character produced by `Nat.digitChar`. -/
theorem digitChar_sub_48 (d : Nat) (h : d < 10) : (Nat.digitChar d).toNat - 48 = d := by
  interval_cases d <;> rfl

/-- `digitsVal` inverts `Nat.toDigitsCore` in base 10 (with enough fuel). -/
theorem digitsVal_toDigitsCore10 :
    ∀ (fuel n : Nat), n < fuel → digitsVal (Nat.toDigitsCore 10 fuel n []) = n := by
  intro fuel
  induction fuel with
  | zero => intro n h; omega
  | succ f ih =>
    intro n h
    simp only [Nat.toDigitsCore]
    by_cases h0 : n / 10 = 0
    · rw [if_pos h0]
      simp only [digitsVal, List.foldl]
      rw [digitChar_sub_48 (n % 10) (by omega)]
      omega
    · rw [if_neg h0, toDigitsCore_append10]
      have hrec : digitsVal (Nat.toDigitsCore 10 f (n / 10) []) = n / 10 :=
        ih (n / 10) (by omega)
      simp only [digitsVal] at hrec ⊢
      rw [List.foldl_append, hrec]
      simp only [List.foldl]
      rw [digitChar_sub_48 (n % 10) (by omega)]
      omega

/-- `Nat.repr` is injective. -/
theorem nat_repr_inj : ∀ {m n : Nat}, Nat.repr m = Nat.repr n → m = n := by
  intro m n h
  have hd : Nat.toDigits 10 m = Nat.toDigits 10 n := congrArg String.data h
  have h1 : digitsVal (Nat.toDigits 10 m) = m := digitsVal_toDigitsCore10 (m + 1) m (by omega)
  have h2 : digitsVal (Nat.toDigits 10 n) = n := digitsVal_toDigitsCore10 (n + 1) n (by omega)
  rw [hd] at h1
  omega

/-- Wrapping a decimal rendering between two fixed strings is injective (the
shape of the generated object ids). -/
theorem wrapped_repr_inj (pre mid suf : String) :
    Function.Injective (fun i : Nat => pre ++ mid ++ "_" ++ Nat.repr i ++ "_" ++ suf) := by
  intro i j h
  apply nat_repr_inj (m := i) (n := j)
  have hd := congrArg String.data h
  simp only [String.data_append, List.append_assoc] at hd
  have h1 := List.append_cancel_left hd
  have h2 := List.append_cancel_left h1
  have h3 := List.append_cancel_left h2
  have h4 := List.append_cancel_right h3
  exact String.ext h4

/-! ## Helper lemmas: first-argmax, filter and map decompositions -/

/-- `pythonMax` returns an element of the list that attains the maximum
score, and every element strictly before it scores strictly less (first
maximum wins). -/
theorem pythonMax_split {α : Type} :
    ∀ (xs : List (α × Nat)) (x : α × Nat),
      ∃ l₁ l₂, x :: xs = l₁ ++ pythonMax x xs :: l₂
        ∧ (∀ q ∈ x :: xs, q.2 ≤ (pythonMax x xs).2)
        ∧ (∀ q ∈ l₁, q.2 < (pythonMax x xs).2) := by
  intro xs
  induction xs with
  | nil =>
    intro x
    exact ⟨[], [], rfl, by simp [pythonMax], by simp⟩
  | cons y ys ih =>
    intro x
    by_cases hxy : x.2 < y.2
    · have hstep : pythonMax x (y :: ys) = pythonMax y ys := by
        show pythonMax (pyStep x y) ys = pythonMax y ys
        rw [show pyStep x y = y from by simp [pyStep, hxy]]
      obtain ⟨m₁, m₂, hsplit, hmax, hstrict⟩ := ih y
      have hy : y.2 ≤ (pythonMax y ys).2 := hmax y (List.mem_cons_self y ys)
      refine ⟨x :: m₁, m₂, ?_, ?_, ?_⟩
      · rw [hstep]
        simpa using hsplit
      · intro q hq
        rw [hstep]
        rcases List.mem_cons.mp hq with hq | hq
        · subst hq
          exact le_of_lt (lt_of_lt_of_le hxy hy)
        · exact hmax q hq
      · intro q hq
        rw [hstep]
        rcases List.mem_cons.mp hq with hq | hq
        · subst hq
          exact lt_of_lt_of_le hxy hy
        · exact hstrict q hq
    · have hstep : pythonMax x (y :: ys) = pythonMax x ys := by
        show pythonMax (pyStep x y) ys = pythonMax x ys
        rw [show pyStep x y = x from by simp [pyStep, hxy]]
      have hyx : y.2 ≤ x.2 := le_of_not_lt hxy
      obtain ⟨m₁, m₂, hsplit, hmax, hstrict⟩ := ih x
      have hx : x.2 ≤ (pythonMax x ys).2 := hmax x (List.mem_cons_self x ys)
      cases m₁ with
      | nil =>
        injection hsplit with h1 h2
        refine ⟨[], y :: ys, ?_, ?_, ?_⟩
        · rw [hstep, ← h1]
          rfl
        · intro q hq
          rw [hstep]
          rcases List.mem_cons.mp hq with hq | hq
          · subst hq
            exact hx
          · rcases List.mem_cons.mp hq with hq | hq
            · subst hq
              exact le_trans hyx hx
            · exact hmax q (List.mem_cons_of_mem _ hq)
        · intro q hq
          simp at hq
      | cons c m₁' =>
        injection hsplit with h1 h2
        refine ⟨x :: y :: m₁', m₂, ?_, ?_, ?_⟩
        · rw [hstep]
          simpa using congrArg (fun l => x :: y :: l) h2
        · intro q hq
          rw [hstep]
          rcases List.mem_cons.mp hq with hq | hq
          · subst hq
            exact hx
          · rcases List.mem_cons.mp hq with hq | hq
            · subst hq
              exact le_trans hyx hx
            · exact hmax q (List.mem_cons_of_mem _ hq)
        · have hcx : x.2 < (pythonMax x ys).2 := by
            have := hstrict c (List.mem_cons_self c m₁')
            rwa [← h1] at this
          intro q hq
          rw [hstep]
          rcases List.mem_cons.mp hq with hq | hq
          · subst hq
            exact hcx
          · rcases List.mem_cons.mp hq with hq | hq
            · subst hq
              exact lt_of_le_of_lt hyx hcx
            · exact hstrict q (List.mem_cons_of_mem _ hq)

/-- A decomposition of a filtered list lifts to the original list: elements
left of the distinguished one either fail the predicate or sit left of it
in the filtered list. -/
theorem filter_split {α : Type} {p : α → Bool} :
    ∀ {l f₁ f₂ : List α} {r : α},
      l.filter p = f₁ ++ r :: f₂ →
      ∃ L₁ L₂, l = L₁ ++ r :: L₂ ∧ ∀ a ∈ L₁, p a = false ∨ a ∈ f₁ := by
  intro l
  induction l with
  | nil =>
    intro f₁ f₂ r h
    rw [List.filter_nil] at h
    exact absurd h.symm (List.append_ne_nil_of_right_ne_nil f₁ (by simp))
  | cons a t ih =>
    intro f₁ f₂ r h
    cases hp : p a with
    | false =>
      rw [List.filter_cons_of_neg (by simp [hp])] at h
      obtain ⟨L₁, L₂, hsplit, hmem⟩ := ih h
      refine ⟨a :: L₁, L₂, by rw [hsplit]; rfl, ?_⟩
      intro b hb
      rcases List.mem_cons.mp hb with hb | hb
      · subst hb; exact Or.inl hp
      · exact hmem b hb
    | true =>
      rw [List.filter_cons_of_pos (by simp [hp])] at h
      cases f₁ with
      | nil =>
        injection h with h1 h2
        subst h1
        exact ⟨[], t, rfl, fun b hb => by simp at hb⟩
      | cons c f₁' =>
        injection h with h1 h2
        subst h1
        obtain ⟨L₁, L₂, hsplit, hmem⟩ := ih h2
        refine ⟨a :: L₁, L₂, by rw [hsplit]; rfl, ?_⟩
        intro b hb
        rcases List.mem_cons.mp hb with hb | hb
        · subst hb; exact Or.inr (List.mem_cons_self _ _)
        · rcases hmem b hb with hf | hf
          · exact Or.inl hf
          · exact Or.inr (List.mem_cons_of_mem _ hf)

/-- A decomposition of a mapped list lifts to the original list. -/
theorem map_eq_append_cons {α β : Type} {g : α → β} :
    ∀ {l : List α} {A : List β} {b : β} {B : List β},
      l.map g = A ++ b :: B →
      ∃ l₁ x l₂, l = l₁ ++ x :: l₂ ∧ l₁.map g = A ∧ g x = b ∧ l₂.map g = B := by
  intro l
  induction l with
  | nil =>
    intro A b B h
    rw [List.map_nil] at h
    exact absurd h.symm (List.append_ne_nil_of_right_ne_nil A (by simp))
  | cons a t ih =>
    intro A b B h
    cases A with
    | nil =>
      injection h with h1 h2
      exact ⟨[], a, t, rfl, rfl, h1, h2⟩
    | cons c A' =>
      injection h with h1 h2
      obtain ⟨l₁, x, l₂, hsplit, hA, hb, hB⟩ := ih h2
      exact ⟨a :: l₁, x, l₂, by rw [hsplit]; rfl, by rw [List.map_cons, hA, h1], hb, hB⟩

/-! ## Helper lemmas: pagination arithmetic and filter fusion -/

/-- The integer `(t + p - 1) / p` computed by the mock pagination is the
rational ceiling of `t / p`. -/
theorem nat_ceil_div_cast (t p : ℕ) (hp : 0 < p) :
    (((t + p - 1) / p : ℕ) : ℤ) = ⌈(t : ℚ) / (p : ℚ)⌉ := by
  have hq : (0 : ℚ) < (p : ℚ) := by exact_mod_cast hp
  set n := (t + p - 1) / p with hn
  have h2 : n * p ≤ t + p - 1 := Nat.div_mul_le_self _ _
  have h3 : t + p - 1 < (n + 1) * p := (Nat.div_lt_iff_lt_mul hp).mp (Nat.lt_succ_self _)
  have hpt : 1 ≤ t + p := by omega
  have h4 : t + p ≤ n * p + p := by
    have h5 : t + p - 1 + 1 ≤ (n + 1) * p := Nat.succ_le_of_lt h3
    rw [Nat.sub_add_cancel hpt, Nat.succ_mul] at h5
    exact h5
  have h1 : t ≤ n * p := Nat.le_of_add_le_add_right h4
  have h6 : n * p < t + p := lt_of_le_of_lt h2 (by omega)
  symm
  rw [Int.ceil_eq_iff]
  constructor
  · rw [lt_div_iff₀ hq]
    have hc2 : (n : ℚ) * p < (t : ℚ) + p := by exact_mod_cast h6
    push_cast
    calc ((n : ℚ) - 1) * p = (n : ℚ) * p - p := by ring
    _ < (t : ℚ) := by linarith
  · rw [div_le_iff₀ hq]
    have hc1 : (t : ℚ) ≤ (n : ℚ) * p := by exact_mod_cast h1
    push_cast
    linarith

/-- Python truthiness gate around a filter: skipping the filter when the
string argument is empty is the same as weakening the predicate by an
emptiness disjunct. -/
theorem gate_filter {α : Type} (s : String) (P : α → Bool) (l : List α) :
    (if s ≠ "" then l.filter P else l) = l.filter (fun t => (s == "") || P t) := by
  by_cases h : s = ""
  · subst h
    simp
  · have hb : (s == "") = false := by
      simpa using h
    simp only [if_pos h, hb, Bool.false_or]

/-- The three sequential truthiness-gated filters of the Synthetic Dataset
equal one pass with the specification predicate `mockMatches`. -/
theorem mockFiltered_eq (q : String) (c r : Option String) :
    mockFiltered q c r = SAMPLE_TRENDS.filter (mockMatches q c r) := by
  unfold mockFiltered
  rcases c with _ | cs <;> rcases r with _ | rs <;> dsimp only
  · rw [gate_filter]
    apply List.filter_congr
    intro t ht
    simp only [mockMatches, Bool.and_true]
    cases hq : (q == "") <;>
      cases h1 : strContains (lowerStr t.name) (lowerStr q) <;>
      cases h2 : strContains (lowerStr t.description) (lowerStr q) <;>
      cases h3 : strContains (lowerStr t.category) (lowerStr q) <;> rfl
  · rw [gate_filter, gate_filter, List.filter_filter]
    apply List.filter_congr
    intro t ht
    simp only [mockMatches, Bool.and_true]
    cases hq : (q == "") <;>
      cases h1 : strContains (lowerStr t.name) (lowerStr q) <;>
      cases h2 : strContains (lowerStr t.description) (lowerStr q) <;>
      cases h3 : strContains (lowerStr t.category) (lowerStr q) <;>
      cases hr : (rs == "") <;>
      cases h5 : t.regions.contains rs <;> rfl
  · rw [gate_filter, gate_filter, List.filter_filter]
    apply List.filter_congr
    intro t ht
    simp only [mockMatches, Bool.and_true]
    cases hq : (q == "") <;>
      cases h1 : strContains (lowerStr t.name) (lowerStr q) <;>
      cases h2 : strContains (lowerStr t.description) (lowerStr q) <;>
      cases h3 : strContains (lowerStr t.category) (lowerStr q) <;>
      cases hc : (cs == "") <;>
      cases h4 : (lowerStr t.category == lowerStr cs) <;> rfl
  · rw [gate_filter, gate_filter, gate_filter, List.filter_filter, List.filter_filter]
    apply List.filter_congr
    intro t ht
    simp only [mockMatches]
    cases hq : (q == "") <;>
      cases h1 : strContains (lowerStr t.name) (lowerStr q) <;>
      cases h2 : strContains (lowerStr t.description) (lowerStr q) <;>
      cases h3 : strContains (lowerStr t.category) (lowerStr q) <;>
      cases hc : (cs == "") <;>
      cases h4 : (lowerStr t.category == lowerStr cs) <;>
      cases hr : (rs == "") <;>
      cases h5 : t.regions.contains rs <;> rfl

/-! ## Helper lemmas: aggregation pipeline -/

/-- The collection loop of `enrich_algolia_data`, characterized
compositionally: trends and stats of the successful sources are appended to
the accumulator, and the third component ends as the last successful
source's name. -/
theorem foldl_enrich_step :
    ∀ (l : List (String × Except String (List ScrapedTrend)))
      (a : List ScrapedTrend) (s : List (String × Nat)) (d : String),
      l.foldl enrich_step (a, s, d) = (a ++ okTrends l, s ++ okStats l, lastOkD d l) := by
  intro l
  induction l with
  | nil =>
    intro a s d
    simp [okTrends, okStats, lastOkD]
  | cons p rest ih =>
    intro a s d
    cases p with
    | mk name exc =>
      cases exc with
      | error e =>
        simp only [List.foldl_cons, enrich_step, okTrends, okStats, lastOkD]
        exact ih a s d
      | ok trends =>
        simp only [List.foldl_cons, enrich_step, okTrends, okStats, lastOkD]
        rw [ih]
        simp [List.append_assoc]

/-- Closed form of `enrich_algolia_data`: it always returns the success
dict, whose parts are described by `okTrends`, `okStats`, `lastOkD` and the
enumeration-indexed id assignment. -/
theorem enrich_algolia_data_eq
    (results : List (String × Except String (List ScrapedTrend))) (ts : Nat) :
    enrich_algolia_data results ts = Except.ok
      { trends := (okTrends results).enum.map
          (fun q => assignId (lastOkD "" results) ts q.1 q.2)
        source_stats := okStats results
        total_trends := (okTrends results).length
        enrichment_timestamp := isoformat ts } := by
  unfold enrich_algolia_data
  rw [foldl_enrich_step results [] [] ""]
  simp only [List.nil_append, assignId, List.length_map, List.enum_length]

/-- `okTrends` splits over append. -/
theorem okTrends_append :
    ∀ (l₁ l₂ : List (String × Except String (List ScrapedTrend))),
      okTrends (l₁ ++ l₂) = okTrends l₁ ++ okTrends l₂ := by
  intro l₁ l₂
  induction l₁ with
  | nil => simp [okTrends]
  | cons p rest ih =>
    cases p with
    | mk name exc =>
      cases exc with
      | error e => simpa [okTrends] using ih
      | ok trends => simp [okTrends, ih]

/-- `okStats` splits over append. -/
theorem okStats_append :
    ∀ (l₁ l₂ : List (String × Except String (List ScrapedTrend))),
      okStats (l₁ ++ l₂) = okStats l₁ ++ okStats l₂ := by
  intro l₁ l₂
  induction l₁ with
  | nil => simp [okStats]
  | cons p rest ih =>
    cases p with
    | mk name exc =>
      cases exc with
      | error e => simpa [okStats] using ih
      | ok trends => simp [okStats, ih]

/-- `lastOkD` splits over append. -/
theorem lastOkD_append :
    ∀ (l₁ l₂ : List (String × Except String (List ScrapedTrend))) (d : String),
      lastOkD d (l₁ ++ l₂) = lastOkD (lastOkD d l₁) l₂ := by
  intro l₁
  induction l₁ with
  | nil => intro l₂ d; simp [lastOkD]
  | cons p rest ih =>
    intro l₂ d
    cases p with
    | mk name exc =>
      cases exc with
      | error e => simpa [lastOkD] using ih l₂ d
      | ok trends => simpa [lastOkD] using ih l₂ name

/-! ## Helper lemmas: article parser -/

/-- Trends already accumulated survive the rest of the parse loop. -/
theorem parse_go_mono (src : String) (ts : Nat) :
    ∀ (l : List Article) (acc : List TrendD) (x : TrendD),
      x ∈ acc → x ∈ l.foldl (parse_step src ts) acc := by
  intro l
  induction l with
  | nil => intro acc x hx; simpa using hx
  | cons a t ih =>
    intro acc x hx
    rw [List.foldl_cons]
    apply ih
    unfold parse_step
    cases a.title? with
    | none => exact hx
    | some title =>
      by_cases ht : title.length < 10
      · simp only [if_pos ht]
        exact hx
      · simp only [if_neg ht]
        exact List.mem_append_left _ hx

/-- Every trend emitted by the parse loop has a name of length at least 10,
provided the accumulator already satisfies this. -/
theorem parse_go_min_length (src : String) (ts : Nat) :
    ∀ (l : List Article) (acc : List TrendD),
      (∀ x ∈ acc, 10 ≤ x.name.length) →
      ∀ x ∈ l.foldl (parse_step src ts) acc, 10 ≤ x.name.length := by
  intro l
  induction l with
  | nil => intro acc hacc x hx; exact hacc x (by simpa using hx)
  | cons a t ih =>
    intro acc hacc x hx
    rw [List.foldl_cons] at hx
    refine ih _ ?_ x hx
    unfold parse_step
    cases a.title? with
    | none => exact hacc
    | some title =>
      by_cases ht : title.length < 10
      · simp only [if_pos ht]
        exact hacc
      · simp only [if_neg ht]
        intro y hy
        rcases List.mem_append.mp hy with hy | hy
        · exact hacc y hy
        · rcases List.mem_cons.mp hy with hy | hy
          · subst hy
            simpa using le_of_not_lt ht
          · simp at hy

/-- An article with an accepted title contributes a trend carrying that
title as its name. -/
theorem parse_go_accept (src : String) (ts : Nat) :
    ∀ (l : List Article) (acc : List TrendD) (a : Article) (title : String),
      a ∈ l → a.title? = some title → 10 ≤ title.length →
      ∃ x ∈ l.foldl (parse_step src ts) acc, x.name = title := by
  intro l
  induction l with
  | nil => intro acc a title ha; simp at ha
  | cons b t ih =>
    intro acc a title ha htitle hlen
    rcases List.mem_cons.mp ha with ha | ha
    · subst ha
      rw [List.foldl_cons]
      unfold parse_step
      rw [htitle]
      dsimp only
      rw [if_neg (by omega)]
      refine ⟨_, parse_go_mono src ts t _ _ (List.mem_append_right _ (List.mem_cons_self _ _)), rfl⟩
    · rw [List.foldl_cons]
      exact ih _ a title ha htitle hlen

/-- A skipped article (no title, or a title below the threshold) leaves the
parse state untouched. -/
theorem parse_step_skip (src : String) (ts : Nat) (acc : List TrendD) (a : Article)
    (h : a.title? = none ∨ ∃ tt, a.title? = some tt ∧ tt.length < 10) :
    parse_step src ts acc a = acc := by
  unfold parse_step
  rcases h with h | ⟨tt, h, hlen⟩
  · rw [h]
  · rw [h]
    dsimp only
    rw [if_pos hlen]

/-! ## Helper lemmas: rounding bounds -/

/-- `round2` maps `[0, 1]` into `[0, 1]`. -/
theorem round2_bounds (x : ℚ) (h0 : 0 ≤ x) (h1 : x ≤ 1) :
    0 ≤ round2 x ∧ round2 x ≤ 1 := by
  unfold round2
  rw [round_eq]
  have hlo : (0 : ℤ) ≤ ⌊x * 100 + 1 / 2⌋ := by
    rw [Int.le_floor]
    push_cast
    linarith
  have hhi : ⌊x * 100 + 1 / 2⌋ ≤ 100 := by
    have : ⌊x * 100 + 1 / 2⌋ < 101 := by
      rw [Int.floor_lt]
      push_cast
      linarith
    omega
  constructor
  · positivity
  · rw [div_le_one (by norm_num)]
    exact_mod_cast hhi

/-! ## Claim theorems -/

/-- Claim C1: every Index Facade search call with an unconfigured client, or
whose remote call raises (for any reason), returns the Synthetic Dataset
response computed from the same query, category, region, page and page-size
arguments — no exception propagates, since the operation is total — and the
fallback decision is per-call: the same function applied to a successful
remote outcome serves that outcome, so the remote path is never disabled by
earlier failures. -/
theorem search_trends_fallback_per_call :
    ∀ (q : String) (c r : Option String) (page pp : Nat),
      search_trends none q c r page pp = get_mock_trends_response q c r page pp
      ∧ (∀ e, search_trends (some (Except.error e)) q c r page pp
          = get_mock_trends_response q c r page pp)
      ∧ (∀ resp, search_trends (some (Except.ok resp)) q c r page pp = resp) :=
  fun _ _ _ _ _ => ⟨rfl, fun _ => rfl, fun _ => rfl⟩

/-- Claim C2: for all non-negative integers, the scorer equals the spec
formula `round(0.4·min(s/10000,1) + 0.3·min(i/100,1) + 0.3·min(b/20,1), 2)`,
always lies in `[0, 1]`, and takes the advertised values at
`(10000, 100, 20)` and `(0, 0, 0)`. -/
theorem calculate_trend_score_props :
    ∀ s i b : Nat,
      calculate_trend_score s i b = trend_score_spec s i b
      ∧ 0 ≤ calculate_trend_score s i b
      ∧ calculate_trend_score s i b ≤ 1
      ∧ calculate_trend_score 10000 100 20 = 1
      ∧ calculate_trend_score 0 0 0 = 0 := by
  intro s i b
  have hA0 : (0 : ℚ) ≤ min ((s : ℚ) / 10000) 1 := le_min (by positivity) (by norm_num)
  have hB0 : (0 : ℚ) ≤ min ((i : ℚ) / 100) 1 := le_min (by positivity) (by norm_num)
  have hC0 : (0 : ℚ) ≤ min ((b : ℚ) / 20) 1 := le_min (by positivity) (by norm_num)
  have hA1 : min ((s : ℚ) / 10000) 1 ≤ 1 := min_le_right _ _
  have hB1 : min ((i : ℚ) / 100) 1 ≤ 1 := min_le_right _ _
  have hC1 : min ((b : ℚ) / 20) 1 ≤ 1 := min_le_right _ _
  have hsum0 : 0 ≤ min ((s : ℚ) / 10000) 1 * 0.4 + min ((i : ℚ) / 100) 1 * 0.3
      + min ((b : ℚ) / 20) 1 * 0.3 := by
    have := mul_nonneg hA0 (show (0 : ℚ) ≤ 0.4 by norm_num)
    have := mul_nonneg hB0 (show (0 : ℚ) ≤ 0.3 by norm_num)
    have := mul_nonneg hC0 (show (0 : ℚ) ≤ 0.3 by norm_num)
    linarith
  have hsum1 : min ((s : ℚ) / 10000) 1 * 0.4 + min ((i : ℚ) / 100) 1 * 0.3
      + min ((b : ℚ) / 20) 1 * 0.3 ≤ 1 := by
    have := mul_le_mul_of_nonneg_right hA1 (show (0 : ℚ) ≤ 0.4 by norm_num)
    have := mul_le_mul_of_nonneg_right hB1 (show (0 : ℚ) ≤ 0.3 by norm_num)
    have := mul_le_mul_of_nonneg_right hC1 (show (0 : ℚ) ≤ 0.3 by norm_num)
    linarith
  have hb := round2_bounds _ hsum0 hsum1
  refine ⟨congrArg round2 (by ring), hb.1, hb.2, ?_, ?_⟩
  · have e : calculate_trend_score 10000 100 20 = round2 1 := by
      unfold calculate_trend_score
      norm_num
    rw [e]
    unfold round2
    rw [round_eq]
    norm_num
  · have e : calculate_trend_score 0 0 0 = round2 0 := by
      unfold calculate_trend_score
      norm_num [show min (0 : ℚ) 1 = 0 from min_eq_left (by norm_num)]
    rw [e]
    unfold round2
    rw [round_eq]
    norm_num

/-- Claim C5 counterexample: for the query `"zzzquery"` the filtered result
set of the Synthetic Dataset is empty (`total = 0`, no hits), yet the
returned facet counts are not a tally of that empty result set — they sum
to 5 on the category facet and report `luxury ↦ 1`. -/
theorem mock_facets_not_tallied :
    (get_mock_trends_response "zzzquery" none none 0 20).total = 0
    ∧ (get_mock_trends_response "zzzquery" none none 0 20).hits.length = 0
    ∧ ((get_mock_trends_response "zzzquery" none none 0 20).facets_category.map Prod.snd).sum = 5
    ∧ (get_mock_trends_response "zzzquery" none none 0 20).facets_category.lookup "luxury"
        = some 1 := by
  refine ⟨by decide, by decide, by decide, by decide⟩

/-- Claim C5 (amended): the facet mapping served by the Synthetic Dataset is
the fixed constant table (`luxury/streetwear/athleisure/casual/avant-garde ↦ 1`;
`Global ↦ 2, North America ↦ 3, Europe ↦ 3, Asia Pacific ↦ 1`), independent
of the query, the filters and the pagination — not a tally of the filtered
result set and not a tally of the corpus. -/
theorem mock_facets_constant :
    ∀ (q : String) (c r : Option String) (page pp : Nat),
      (get_mock_trends_response q c r page pp).facets_category = mock_facets_category
      ∧ (get_mock_trends_response q c r page pp).facets_regions = mock_facets_regions :=
  fun _ _ _ _ _ => ⟨rfl, rfl⟩

/-- Claim C9: a Synthetic-Dataset lookup by id returns exactly the corpus
record carrying that `objectID` (unique, since corpus ids are distinct) and
an explicit `none` — not an exception — when no record matches; the Facade
routes to this lookup when the client is unconfigured or the remote call
raises. -/
theorem mock_get_by_id_spec :
    ∀ id : String,
      (∀ t : Trend, get_mock_trend_by_id id = some t ↔ t ∈ SAMPLE_TRENDS ∧ t.objectID = id)
      ∧ (get_mock_trend_by_id id = none ↔ ∀ t ∈ SAMPLE_TRENDS, t.objectID ≠ id)
      ∧ get_trend_by_id none id = get_mock_trend_by_id id
      ∧ (∀ e, get_trend_by_id (some (Except.error e)) id = get_mock_trend_by_id id) := by
  intro id
  have hnodup : (SAMPLE_TRENDS.map (fun t => t.objectID)).Nodup := by decide
  refine ⟨?_, ?_, rfl, fun _ => rfl⟩
  · intro t
    constructor
    · intro h
      have hp := List.find?_some h
      have hm := List.mem_of_find?_eq_some h
      exact ⟨hm, beq_iff_eq.mp hp⟩
    · rintro ⟨hm, heq⟩
      cases hf : get_mock_trend_by_id id with
      | none =>
        unfold get_mock_trend_by_id at hf
        rw [List.find?_eq_none] at hf
        have hcontra := hf t hm
        rw [heq] at hcontra
        simp at hcontra
      | some u =>
        have hpu := List.find?_some hf
        have hmu := List.mem_of_find?_eq_some hf
        have hu : u.objectID = id := beq_iff_eq.mp hpu
        have hut : u = t := List.inj_on_of_nodup_map hnodup hmu hm (by rw [hu, heq])
        rw [hut]
  · unfold get_mock_trend_by_id
    rw [List.find?_eq_none]
    constructor
    · intro h t ht heq
      exact h t ht (by simp [heq])
    · intro h t ht hbeq
      exact h t ht (beq_iff_eq.mp hbeq)

/-- Claim C9 witness: a present id resolves to its record, an absent id to
`none`. -/
theorem mock_get_by_id_spec_witness :
    get_mock_trend_by_id "trend_002" = some trend_002
    ∧ get_mock_trend_by_id "zzz" = none := by
  constructor
  · exact ((mock_get_by_id_spec "trend_002").1 trend_002).mpr
      ⟨List.mem_cons_of_mem _ (List.mem_cons_self _ _), rfl⟩
  · exact (mock_get_by_id_spec "zzz").2.1.mpr (by decide)

/-- Claim C10: with the remote backend unconfigured, `get_facet_values` is
total over arbitrary facet names — the fixed 10-element category list for
`"category"`, the fixed 7-element region list for `"regions"`, and `[]` for
every other name, never an exception; being a pure function of the name,
repeated calls agree. -/
theorem get_facet_values_total_cases :
    get_facet_values none "category" = SAMPLE_CATEGORIES
    ∧ SAMPLE_CATEGORIES.length = 10
    ∧ get_facet_values none "regions" = SAMPLE_REGIONS
    ∧ SAMPLE_REGIONS.length = 7
    ∧ ∀ facet_name : String, facet_name ≠ "category" → facet_name ≠ "regions" →
        get_facet_values none facet_name = [] := by
  refine ⟨rfl, rfl, rfl, rfl, ?_⟩
  intro n h1 h2
  unfold get_facet_values
  rw [if_neg h1, if_neg h2]

/-- Claim C10 witness: an unknown facet name yields the empty list. -/
theorem get_facet_values_total_cases_witness :
    get_facet_values none "brand" = [] :=
  get_facet_values_total_cases.2.2.2.2 "brand" (by decide) (by decide)

/-- Claim C4: for every argument tuple with a positive page size, a search
served by the Synthetic Dataset filters the corpus by the conjunction of
the query/category/region predicates, paginates by the
`[page·page_size, page·page_size + page_size)` slice, returns at most
`page_size` hits, and reports `pages = ceil(total / page_size)` (so `0`
when `total = 0`). -/
theorem mock_search_pagination :
    ∀ (q : String) (c r : Option String) (page pp : Nat),
      0 < pp → mock_search_spec q c r page pp := by
  intro q c r page pp hpp
  have hfe := mockFiltered_eq q c r
  unfold mock_search_spec
  dsimp only
  refine ⟨?_, ?_, ?_, ?_, ?_, ?_⟩
  · show ((mockFiltered q c r).drop (page * pp)).take pp = _
    rw [hfe]
  · show (mockFiltered q c r).length = _
    rw [hfe]
  · show (((mockFiltered q c r).drop (page * pp)).take pp).length ≤ pp
    rw [List.length_take]
    exact min_le_left _ _
  · show ((mockFiltered q c r).length + pp - 1) / pp = (mockFiltered q c r).length ⌈/⌉ pp
    rw [Nat.ceilDiv_eq_add_pred_div]
  · show ((((mockFiltered q c r).length + pp - 1) / pp : ℕ) : ℤ)
      = ⌈((mockFiltered q c r).length : ℚ) / (pp : ℚ)⌉
    exact nat_ceil_div_cast _ _ hpp
  · intro h
    show ((mockFiltered q c r).length + pp - 1) / pp = 0
    have h0 : (mockFiltered q c r).length = 0 := h
    rw [h0]
    exact Nat.div_eq_of_lt (by omega)

/-- Claim C4 witness: the contract instantiated at a concrete search. -/
theorem mock_search_pagination_witness :
    0 < 20 ∧ mock_search_spec "y2k" (some "streetwear") (some "Europe") 0 20 :=
  ⟨by decide, mock_search_pagination "y2k" (some "streetwear") (some "Europe") 0 20 (by decide)⟩

/-- Claim C6 (amended): the aggregation run never reports a failure — even
when adapters raise it returns the success dict, whose trends are exactly
the successful adapters' trends (id-enriched, in source order) and whose
per-source stats are exactly the successful sources' counts; a raising
adapter is skipped without leaving any trace in the result: the run equals
the run with that adapter removed.  (The claim's `errors` collection does
not exist in the result, and nothing is raised even when all adapters
fail.) -/
theorem enrich_partial_failure :
    ∀ (results : List (String × Except String (List ScrapedTrend))) (ts : Nat),
      enrich_algolia_data results ts = Except.ok
        { trends := (okTrends results).enum.map
            (fun q => assignId (lastOkD "" results) ts q.1 q.2)
          source_stats := okStats results
          total_trends := (okTrends results).length
          enrichment_timestamp := isoformat ts }
      ∧ is_error_report (enrich_algolia_data results ts) = false
      ∧ (∀ (pre post : List (String × Except String (List ScrapedTrend))) (n e : String),
          results = pre ++ (n, Except.error e) :: post →
          enrich_algolia_data results ts = enrich_algolia_data (pre ++ post) ts) := by
  intro results ts
  have he := enrich_algolia_data_eq results ts
  refine ⟨he, by rw [he]; rfl, ?_⟩
  intro pre post n e hres
  subst hres
  rw [enrich_algolia_data_eq, enrich_algolia_data_eq]
  have h1 : okTrends (pre ++ (n, Except.error e) :: post) = okTrends (pre ++ post) := by
    rw [okTrends_append, okTrends_append]
    congr 1
  have h2 : okStats (pre ++ (n, Except.error e) :: post) = okStats (pre ++ post) := by
    rw [okStats_append, okStats_append]
    congr 1
  have h3 : lastOkD "" (pre ++ (n, Except.error e) :: post) = lastOkD "" (pre ++ post) := by
    rw [lastOkD_append, lastOkD_append]
    rfl
  rw [h1, h2, h3]

/-- Claim C6 witness: a three-adapter run with one raising adapter equals
the two-adapter run without it. -/
theorem enrich_partial_failure_witness :
    enrich_algolia_data c6_results_mixed 0 = enrich_algolia_data c6_results_clean 0 :=
  (enrich_partial_failure c6_results_mixed 0).2.2
    [("Vogue", Except.ok [vogueTrend])] [("Who What Wear", Except.ok [wwwTrend])]
    "Business of Fashion" "ClientConnectorError" rfl

/-- Claim C6 counterexample: in the three-adapter run with exactly one
raising adapter, the result records zero failures — it is the success dict
(not an error report), its stats list the two surviving sources only, and
no `errors` entry of any kind exists — whereas the claim demands exactly
one recorded error. -/
theorem enrich_no_error_recorded :
    is_error_report (enrich_algolia_data c6_results_mixed 0) = false
    ∧ stats_of (enrich_algolia_data c6_results_mixed 0) = [("Vogue", 1), ("Who What Wear", 1)]
    ∧ trends_count (enrich_algolia_data c6_results_mixed 0) = 2 :=
  ⟨rfl, rfl, rfl⟩

/-- Claim C7 (amended): within one aggregation run all assigned ids are
pairwise distinct (the per-batch index is rendered into the id and decimal
rendering is injective) and `created_at`/`updated_at` are both the
ingestion timestamp; but every id embeds the single leaked `source_name` —
the name of the LAST successfully processed source — not the trend's own
source. -/
theorem enrich_id_assignment :
    ∀ (results : List (String × Except String (List ScrapedTrend))) (ts : Nat)
      (r : EnrichOk),
      enrich_algolia_data results ts = Except.ok r →
      (r.trends.map (fun t => t.objectID)).Nodup
      ∧ (∀ t ∈ r.trends, t.created_at = isoformat ts ∧ t.updated_at = isoformat ts)
      ∧ (∀ (i : Nat) (h : i < r.trends.length),
          (r.trends.get ⟨i, h⟩).objectID =
            "scraped_" ++ lowerStr (lastOkD "" results) ++ "_" ++ Nat.repr i
              ++ "_" ++ Nat.repr ts) := by
  intro results ts r hr
  rw [enrich_algolia_data_eq] at hr
  injection hr with hr
  subst hr
  refine ⟨?_, ?_, ?_⟩
  · have hmap : ((okTrends results).enum.map
        (fun q => assignId (lastOkD "" results) ts q.1 q.2)).map (fun t => t.objectID)
        = (List.range (okTrends results).length).map (fun i =>
            "scraped_" ++ lowerStr (lastOkD "" results) ++ "_" ++ Nat.repr i
              ++ "_" ++ Nat.repr ts) := by
      rw [List.map_map]
      rw [show ((fun t : ScrapedTrend => t.objectID)
            ∘ (fun q : Nat × ScrapedTrend => assignId (lastOkD "" results) ts q.1 q.2))
          = (fun i : Nat => "scraped_" ++ lowerStr (lastOkD "" results) ++ "_"
              ++ Nat.repr i ++ "_" ++ Nat.repr ts) ∘ Prod.fst from rfl]
      rw [← List.map_map, List.enum_map_fst]
    rw [hmap]
    exact List.Nodup.map
      (wrapped_repr_inj "scraped_" (lowerStr (lastOkD "" results)) (Nat.repr ts))
      (List.nodup_range _)
  · intro t ht
    rcases List.mem_map.mp ht with ⟨q, hq, rfl⟩
    exact ⟨rfl, rfl⟩
  · intro i h
    rw [List.get_eq_getElem, List.getElem_map, List.getElem_enum]
    rfl

/-- Claim C7 witness: pairwise-distinct ids on a concrete two-source run. -/
theorem enrich_id_assignment_witness :
    (c7_result.trends.map (fun t => t.objectID)).Nodup :=
  (enrich_id_assignment c7_results 7 c7_result rfl).1

/-- Claim C7 counterexample: in the two-source run, the trend scraped from
Vogue is assigned id `"scraped_fast fashion_0_7"` — built from the LAST
source's name — which does not contain its own source's name at all. -/
theorem enrich_id_foreign_source :
    (enrich_algolia_data c7_results 7).map
        (fun r => r.trends.map (fun t => (t.source, t.objectID)))
      = Except.ok [("Vogue", "scraped_fast fashion_0_7"),
                   ("Zara/ASOS/H&M", "scraped_fast fashion_1_7")]
    ∧ strContains "scraped_fast fashion_0_7" "vogue" = false
    ∧ strContains "scraped_fast fashion_0_7" "fast fashion" = true := by
  refine ⟨rfl, by decide, by decide⟩

/-- Claim C8 (amended): the parser drops every fragment whose extracted
title has fewer than 10 characters — silently: no exception is raised, the
fragment never appears in the returned trends (every returned name has
length ≥ 10), and the drop leaves no trace whatsoever (the parse equals the
parse without the fragment); fragments with titles of length at least 10
are not rejected on this ground.  (No `ValidationError` object and no
"skipped" counter exist in the code.) -/
theorem parse_min_title_threshold :
    ∀ (articles : List Article) (src : String) (ts : Nat),
      (∀ t ∈ parse_fashion_articles articles src ts, 10 ≤ t.name.length)
      ∧ (∀ a ∈ articles.take 15, ∀ title, a.title? = some title → 10 ≤ title.length →
          ∃ t ∈ parse_fashion_articles articles src ts, t.name = title)
      ∧ (∀ (pre post : List Article) (a : Article),
          articles = pre ++ a :: post → articles.length ≤ 15 →
          (a.title? = none ∨ ∃ tt, a.title? = some tt ∧ tt.length < 10) →
          parse_fashion_articles articles src ts
            = parse_fashion_articles (pre ++ post) src ts) := by
  intro articles src ts
  refine ⟨?_, ?_, ?_⟩
  · intro t ht
    exact parse_go_min_length src ts _ [] (by simp) t ht
  · intro a ha title htitle hlen
    exact parse_go_accept src ts _ [] a title ha htitle hlen
  · intro pre post a hsplit hlen hskip
    subst hsplit
    have hlen2 : (pre ++ post).length ≤ 15 := by
      simp only [List.length_append, List.length_cons] at hlen ⊢
      omega
    unfold parse_fashion_articles
    rw [List.take_of_length_le hlen, List.take_of_length_le hlen2,
      List.foldl_append, List.foldl_append, List.foldl_cons,
      parse_step_skip src ts _ a hskip]

/-- Claim C8 witness: a below-threshold article among accepted ones is
dropped without affecting the parse. -/
theorem parse_min_title_threshold_witness :
    parse_fashion_articles [c8w_good, c8w_short] "https://www.vogue.com/runway" 5
      = parse_fashion_articles [c8w_good] "https://www.vogue.com/runway" 5 :=
  (parse_min_title_threshold [c8w_good, c8w_short] "https://www.vogue.com/runway" 5).2.2
    [c8w_good] [] c8w_short rfl (by decide) (Or.inr ⟨"Tiny hat", rfl, by decide⟩)

/-- Claim C8 counterexample: the fragment with the 5-character title is
dropped with no error and no skip record of any kind — the parse output on
`[c8_short, c8_good]` is identical to the output on `[c8_good]` alone, so
nothing counts it as "skipped". -/
theorem parse_short_title_no_trace :
    parse_fashion_articles [c8_short, c8_good] "https://www.vogue.com/fashion" 3
      = parse_fashion_articles [c8_good] "https://www.vogue.com/fashion" 3
    ∧ (parse_fashion_articles [c8_short, c8_good] "https://www.vogue.com/fashion" 3).map
        (fun t => t.name) = ["Minimalist Athleisure Everywhere"]
    ∧ (parse_fashion_articles [c8_short, c8_good] "https://www.vogue.com/fashion" 3).length
        = 1 :=
  ⟨rfl, rfl, rfl⟩

/-- Claim C3: the classifier returns the taxonomy category attaining the
strictly highest keyword count in the lower-cased text, ties broken by
taxonomy declaration order (the winner's count strictly exceeds every
earlier category's count), defaulting to `"casual"` when all counts are
zero; a region is detected exactly when one of its keywords occurs, with
`["Global"]` when none match; and `classify("") = ("casual", {"Global"})`.
Both functions are plain Lean functions of the text, hence pure and
deterministic. -/
theorem classify_spec :
    ∀ text : String,
      ((∀ p ∈ category_keywords, keywordScore p.2 (lowerStr text) = 0) →
        identify_category text = "casual")
      ∧ ((∃ p ∈ category_keywords, 0 < keywordScore p.2 (lowerStr text)) →
          ∃ l₁ p l₂, category_keywords = l₁ ++ p :: l₂
            ∧ identify_category text = p.1
            ∧ (∀ q ∈ category_keywords,
                keywordScore q.2 (lowerStr text) ≤ keywordScore p.2 (lowerStr text))
            ∧ (∀ q ∈ l₁, keywordScore q.2 (lowerStr text) < keywordScore p.2 (lowerStr text)))
      ∧ (∀ rg : String, rg ∈ identify_regions text ↔
          ((∃ kws, (rg, kws) ∈ region_mapping
              ∧ kws.any (fun kw => strContains (lowerStr text) kw) = true)
            ∨ ((∀ p ∈ region_mapping,
                  p.2.any (fun kw => strContains (lowerStr text) kw) = false)
                ∧ rg = "Global")))
      ∧ identify_category "" = "casual"
      ∧ identify_regions "" = ["Global"] := by
  intro text
  refine ⟨?_, ?_, ?_, by decide, by decide⟩
  · intro hall
    unfold identify_category
    have hnil : ((category_keywords.map
        (fun p => (p.1, keywordScore p.2 (lowerStr text)))).filter (fun q => 0 < q.2)) = [] := by
      rw [List.filter_eq_nil_iff]
      intro a ha
      rcases List.mem_map.mp ha with ⟨p, hp, rfl⟩
      simp [hall p hp]
    rw [hnil]
    rfl
  · rintro ⟨p0, hp0, hpos⟩
    set cs := ((category_keywords.map
      (fun p => (p.1, keywordScore p.2 (lowerStr text)))).filter (fun q => 0 < q.2)) with hcs
    have hmem : (p0.1, keywordScore p0.2 (lowerStr text)) ∈ cs := by
      rw [hcs]
      exact List.mem_filter.mpr ⟨List.mem_map.mpr ⟨p0, hp0, rfl⟩, by simpa using hpos⟩
    cases hcse : cs with
    | nil =>
      rw [hcse] at hmem
      simp at hmem
    | cons x xs =>
      obtain ⟨f₁, f₂, hsplit, hmax, hstrict⟩ := pythonMax_split xs x
      have hic : identify_category text = (pythonMax x xs).1 := by
        unfold identify_category
        rw [← hcs, hcse]
        rfl
      have hpmcs : pythonMax x xs ∈ cs := by
        rw [hcse, hsplit]
        exact List.mem_append_right _ (List.mem_cons_self _ _)
      have hpmpos : 0 < (pythonMax x xs).2 := by
        have := (List.mem_filter.mp (hcs ▸ hpmcs)).2
        simpa using this
      have hcs2 : ((category_keywords.map
          (fun p => (p.1, keywordScore p.2 (lowerStr text)))).filter (fun q => 0 < q.2))
          = f₁ ++ pythonMax x xs :: f₂ := by
        rw [← hcs, hcse]
        exact hsplit
      obtain ⟨M₁, M₂, hM, hM₁⟩ := filter_split hcs2
      obtain ⟨K₁, k, K₂, hK, hK₁, hgk, hK₂⟩ := map_eq_append_cons hM
      have hname : (pythonMax x xs).1 = k.1 := by rw [← hgk]
      have hkscore : keywordScore k.2 (lowerStr text) = (pythonMax x xs).2 := by rw [← hgk]
      refine ⟨K₁, k, K₂, hK, hic.trans hname, ?_, ?_⟩
      · intro q hq
        rw [hkscore]
        by_cases hqpos : 0 < keywordScore q.2 (lowerStr text)
        · have hqcs : (q.1, keywordScore q.2 (lowerStr text)) ∈ cs := by
            rw [hcs]
            exact List.mem_filter.mpr ⟨List.mem_map.mpr ⟨q, hq, rfl⟩, by simpa using hqpos⟩
          have := hmax _ (by rw [← hcse]; exact hqcs)
          simpa using this
        · omega
      · intro q hq
        rw [hkscore]
        have hgq : (q.1, keywordScore q.2 (lowerStr text)) ∈ M₁ := by
          rw [← hK₁]
          exact List.mem_map.mpr ⟨q, hq, rfl⟩
        rcases hM₁ _ hgq with hfail | hf₁
        · have : ¬ 0 < keywordScore q.2 (lowerStr text) := by simpa using hfail
          omega
        · exact hstrict _ hf₁
  · intro rg
    set dr := region_mapping.filterMap
      (fun p => if p.2.any (fun kw => strContains (lowerStr text) kw) then some p.1 else none)
      with hdr
    have hreg : identify_regions text = if dr.isEmpty then ["Global"] else dr := by
      unfold identify_regions
      rw [← hdr]
    by_cases hemp : dr.isEmpty
    · have hdrnil : dr = [] := List.isEmpty_iff.mp hemp
      have hnone : ∀ p ∈ region_mapping,
          (p.2.any fun kw => strContains (lowerStr text) kw) = false := by
        intro p hp
        by_cases hb : (p.2.any fun kw => strContains (lowerStr text) kw) = true
        · exfalso
          have hmem : p.1 ∈ dr := by
            rw [hdr]
            exact List.mem_filterMap.mpr ⟨p, hp, by rw [if_pos hb]⟩
          rw [hdrnil] at hmem
          simp at hmem
        · simpa using hb
      rw [hreg, if_pos hemp]
      constructor
      · intro hrg
        exact Or.inr ⟨hnone, by simpa using hrg⟩
      · rintro (⟨kws, hmem, hany⟩ | ⟨_, hrfl⟩)
        · rw [hnone (rg, kws) hmem] at hany
          cases hany
        · rw [hrfl]
          exact List.mem_cons_self _ _
    · have hmemdr : rg ∈ dr ↔ ∃ kws, (rg, kws) ∈ region_mapping
          ∧ (kws.any fun kw => strContains (lowerStr text) kw) = true := by
        rw [hdr, List.mem_filterMap]
        constructor
        · rintro ⟨p, hp, hsome⟩
          by_cases hb : (p.2.any fun kw => strContains (lowerStr text) kw) = true
          · rw [if_pos hb] at hsome
            injection hsome with h1
            subst h1
            exact ⟨p.2, hp, hb⟩
          · rw [if_neg hb] at hsome
            cases hsome
        · rintro ⟨kws, hmem, hany⟩
          exact ⟨(rg, kws), hmem, by rw [if_pos hany]⟩
      rw [hreg, if_neg hemp, hmemdr]
      constructor
      · exact fun h => Or.inl h
      · rintro (h | ⟨hnone, hrfl⟩)
        · exact h
        · exfalso
          apply hemp
          rw [hdr, List.isEmpty_iff, List.filterMap_eq_nil_iff]
          intro p hp
          rw [if_neg (by simp [hnone p hp])]

/-- Claim C3 witness: a text containing no taxonomy keyword classifies as
the default category. -/
theorem classify_spec_witness : identify_category "zzz" = "casual" :=
  (classify_spec "zzz").1 (by decide)
